import Mathlib

/-!
Verification of the Split-Flap Clock firmware (splitflapclockcode.ino).

The development shallowly embeds the three firmware components the claims
are about:

* the fractional-step accumulator of `SplitFlapClock::moveFlaps`
  (`cround`, `flapRun`, `callsRun`);
* the `StepperMotor` class as an explicit state record with one operation
  per public method (`MotorState`, `moveStepsM`, `updateMotor`, `stopM`,
  `setSpeedM`), machine time being passed in as the `micros()` argument of
  each call and the wraparound subtraction of the 32-bit timer modelled
  by `usub32`;
* the `SplitFlapClock` orchestrator (`ClockS`, `updateM`, `initializeM`,
  `handleRunningM`, `handleMinuteAlignM`), where the outcomes supplied by
  the hardware and the time source within one tick (endstop levels, homing
  success, current time, quiet-hours flag) are fields of an environment
  record `Env`, and each flap-level motion call the orchestrator issues is
  recorded as a `ClockEv` event (`moveTo` for a `moveToAbsoluteFlap` call,
  `flapAdvance` for a direct `moveFlaps` call, `rawSteps` for a direct
  `StepperMotor::moveSteps` call).  Floating point accumulators are
  idealised as rationals.

The quiet-hours policy is embedded from the dual-schedule firmware
revision contained in README.md (`isInQuietHours` with two day-masked
schedules A and B), which is the revision the specification describes.
-/

namespace SplitFlap

/-! ### C rounding

math.h `round` rounds half away from zero; Mathlib `round` rounds half
up, so the negative side is mirrored explicitly. -/

def cround (x : ℚ) : ℤ :=
  if x < 0 then -round (-x) else round x

/-! ### SplitFlapClock::moveFlaps accumulator recursion

One iteration of the loop body of `moveFlaps`: `idealSteps =
stepsPerFlap + errorAccumulator; actualSteps = round(idealSteps);
errorAccumulator = idealSteps - actualSteps;` and the motor is commanded
`actualSteps` whole steps.  `flapRun S e n` performs `n` iterations from
accumulator `e` and returns the final accumulator together with the sum
of the whole steps commanded.  `callsRun` chains several `moveFlaps`
calls (one entry of the list per call), the accumulator persisting
across calls exactly as the member `_minuteStepError` / `_hourStepError`
does. -/

def flapRun (S : ℚ) : ℚ → ℕ → ℚ × ℤ
  | e, 0 => (e, 0)
  | e, n + 1 =>
      let ideal := S + e
      let a := cround ideal
      let r := flapRun S (ideal - a) n
      (r.1, a + r.2)

def callsRun (S : ℚ) : ℚ → List ℕ → ℚ × ℤ
  | e, [] => (e, 0)
  | e, n :: ns =>
      let r := flapRun S e n
      let r2 := callsRun S r.1 ns
      (r2.1, r.2 + r2.2)

/-! ### StepperMotor

The class `StepperMotor` as a state record.  `micros()` readings are the
`now` argument of the operations that sample the clock; the firmware's
32-bit unsigned timer subtraction `micros() - _lastStepTime` is
`usub32`.  The four coil output pins carry no information beyond the
phase index driving them, so they are not part of the state. -/

structure MotorState where
  currentStepInSequence : ℤ
  targetSteps : ℕ
  stepsMoved : ℕ
  direction : ℤ
  isMoving : Bool
  lastStepTime : ℕ
  stepInterval : ℕ
  reverseDirection : Bool
deriving DecidableEq

/-- The constructor's field initialisation (pins are driven LOW, no state). -/
def motorInit (reverseDirection : Bool) : MotorState :=
  { currentStepInSequence := 0
    targetSteps := 0
    stepsMoved := 0
    direction := 1
    isMoving := false
    lastStepTime := 0
    stepInterval := 0
    reverseDirection := reverseDirection }

/-- StepperMotor::setSpeed.  `_stepInterval = 1000000L / stepsPerSecond`
when positive, else `_stepInterval = 0`; the integer division only ever
runs on positive operands, where every division convention agrees. -/
def setSpeedM (stepsPerSecond : ℤ) (s : MotorState) : MotorState :=
  if stepsPerSecond > 0 then
    { s with stepInterval := (1000000 / stepsPerSecond).toNat }
  else
    { s with stepInterval := 0 }

/-- StepperMotor::moveSteps.  `now` is the `micros()` reading taken when
the move starts. -/
def moveStepsM (numSteps : ℤ) (now : ℕ) (s : MotorState) : MotorState :=
  let s1 := { s with targetSteps := numSteps.natAbs, stepsMoved := 0 }
  if numSteps.natAbs > 0 then
    { s1 with isMoving := true
              direction := (if numSteps > 0 then 1 else -1) *
                           (if s1.reverseDirection then -1 else 1)
              lastStepTime := now }
  else s1

/-- StepperMotor::stop (the pins are de-energised; no tracked state
beyond the moving flag changes). -/
def stopM (s : MotorState) : MotorState :=
  { s with isMoving := false }

/-- 32-bit unsigned wraparound subtraction, the meaning of
`micros() - _lastStepTime` on the target. -/
def usub32 (a b : ℕ) : ℕ :=
  (a + 2 ^ 32 - b % 2 ^ 32) % 2 ^ 32

/-- StepperMotor::update at a tick whose `micros()` reading is `now`. -/
def updateMotor (now : ℕ) (s : MotorState) : MotorState :=
  if !s.isMoving then s
  else if usub32 now s.lastStepTime ≥ s.stepInterval then
    let s1 := { s with lastStepTime := s.lastStepTime + s.stepInterval }
    let p := s1.currentStepInSequence + s1.direction
    let p1 := if p ≥ 8 then 0 else if p < 0 then 7 else p
    let s2 := { s1 with currentStepInSequence := p1, stepsMoved := s1.stepsMoved + 1 }
    if s2.stepsMoved ≥ s2.targetSteps then stopM s2 else s2
  else s

/-- One public operation of the class, with the `micros()` reading the
call observes where the method samples the clock. -/
inductive MotorOp where
  | moveStepsOp (numSteps : ℤ) (now : ℕ)
  | updateOp (now : ℕ)
  | stopOp
  | setSpeedOp (stepsPerSecond : ℤ)
deriving DecidableEq

def applyOp (s : MotorState) : MotorOp → MotorState
  | .moveStepsOp n now => moveStepsM n now s
  | .updateOp now => updateMotor now s
  | .stopOp => stopM s
  | .setSpeedOp sps => setSpeedM sps s

def runOps (s : MotorState) : List MotorOp → MotorState
  | [] => s
  | op :: ops => runOps (applyOp s op) ops

/-- Benign call: `moveSteps` is only issued with a nonzero count or on an
idle motor, and `stop` only on an idle motor.  The literal claim quantifies
over all sequences; these are the calls on which its moving-flag biconditional
actually holds (see the C3 counterexample). -/
def okOpB (s : MotorState) : MotorOp → Bool
  | .moveStepsOp n _ => decide (n ≠ 0) || !s.isMoving
  | .stopOp => !s.isMoving
  | _ => true

def okTraceB (s : MotorState) : List MotorOp → Bool
  | [] => true
  | op :: ops => okOpB s op && okTraceB (applyOp s op) ops

/-- The phase index is a valid row of the 8-entry phase table and the
direction is one of the two units (the wrap in `update` is only sound
for unit direction, so the direction bound is carried along). -/
def PhaseDirInv (s : MotorState) : Prop :=
  0 ≤ s.currentStepInSequence ∧ s.currentStepInSequence < 8 ∧
  (s.direction = 1 ∨ s.direction = -1)

/-- The moving flag agrees with a positive remaining step count. -/
def MovingInv (s : MotorState) : Prop :=
  s.isMoving = true ↔ s.stepsMoved < s.targetSteps

/-! ### Hour-flap mapping and quiet hours -/

/-- SplitFlapClock::getTargetHourFlap, with the global `g_is24HourDisplay`
passed explicitly. -/
def getTargetHourFlap (is24HourDisplay : Bool) (hour24 : ℤ) : ℤ :=
  if is24HourDisplay then hour24
  else
    if hour24 = 0 ∨ hour24 = 12 then 12
    else if hour24 > 12 then hour24 - 12
    else hour24

/-- The quiet-hours configuration globals of the dual-schedule revision
(README.md): the master switch and, per schedule, start hour, end hour
and the day-of-week bitmask (bit 0 = Sunday). -/
structure QuietConfig where
  enabled : Bool
  startA : ℤ
  endA : ℤ
  daysA : ℕ
  startB : ℤ
  endB : ℤ
  daysB : ℕ
deriving DecidableEq

/-- isNtpActive (README.md revision): day-of-week is only available from
NTP, which requires not being in manual time mode and WiFi being up. -/
def isNtpActive (manualTimeMode wifiConnected : Bool) : Bool :=
  !manualTimeMode && wifiConnected

/-- One schedule block of isInQuietHours (README.md revision): today's bit
of the day bitmask gates the hour-window test; a start hour greater than
the end hour means an overnight window. -/
def scheduleHits (days : ℕ) (startH endH currentHour : ℤ) (dayOfWeek : ℕ) : Bool :=
  if (days >>> dayOfWeek) % 2 = 1 then
    if startH > endH then
      decide (currentHour ≥ startH) || decide (currentHour < endH)
    else
      decide (currentHour ≥ startH) && decide (currentHour < endH)
  else false

/-- isInQuietHours of the dual-schedule revision (README.md): false when
the master switch is off or NTP (hence the day of week) is unavailable,
else true iff schedule A or schedule B hits. -/
def isInQuietHours (cfg : QuietConfig) (manualTimeMode wifiConnected : Bool)
    (currentHour : ℤ) (dayOfWeek : ℕ) : Bool :=
  if !cfg.enabled || !isNtpActive manualTimeMode wifiConnected then false
  else if scheduleHits cfg.daysA cfg.startA cfg.endA currentHour dayOfWeek then true
  else if scheduleHits cfg.daysB cfg.startB cfg.endB currentHour dayOfWeek then true
  else false

/-- Spec-side reading of one window, following the specification's words:
an overnight window (start hour > end hour) is active when
hour ≥ start OR hour < end; a same-day window when start ≤ hour < end. -/
def windowActiveSpec (startH endH hour : ℤ) : Prop :=
  if startH > endH then startH ≤ hour ∨ hour < endH
  else startH ≤ hour ∧ hour < endH

/-- Spec-side reading of an applicable schedule: today's bit is set in the
day bitmask and the window is active. -/
def scheduleAppliesSpec (days : ℕ) (startH endH hour : ℤ) (dow : ℕ) : Prop :=
  Nat.testBit days dow = true ∧ windowActiveSpec startH endH hour

/-! ### SplitFlapClock orchestrator

The orchestrator is embedded as a per-tick transition function.  Inputs
the firmware samples from hardware or the time source during one tick —
endstop levels, homing outcomes (the synchronous `homeMotor` loops), the
current time, the quiet-hours verdict, and whether a motor's in-flight
asynchronous move completes during this tick's `StepperMotor::update`
calls — are fields of `Env`.  Every flap-level motion call is recorded as
an event; `homeMotor` and the `initialize()` entry are also recorded so
that call order is visible in the trace. -/

inductive Axis where
  | minutes
  | hours
deriving DecidableEq

inductive ClockEv where
  /-- An `initialize()` invocation. -/
  | initCall
  /-- A `homeMotor` call on an axis. -/
  | homeAttempt (a : Axis)
  /-- A `moveToAbsoluteFlap` call driving an axis to an absolute flap
  (possibly zero physical flaps when already there). -/
  | moveTo (a : Axis) (target : ℤ)
  /-- A direct `moveFlaps(motor, err, S, n)` call with n > 0 (the
  incremental advance paths). -/
  | flapAdvance (a : Axis) (n : ℤ)
  /-- A direct `StepperMotor::moveSteps` call (the minute-align sweep). -/
  | rawSteps (a : Axis) (n : ℤ)
deriving DecidableEq

inductive ClockState where
  | IDLE
  | RUNNING
  | CALIB_MODE
  | MINUTE_ALIGN
  | QUIET_MODE
  | ERROR_STATE
deriving DecidableEq

/-- The per-tick inputs (time source, endstops, homing outcomes, the
steps-per-flap configuration globals, and whether each motor's in-flight
move completes during this tick's motor updates). -/
structure Env where
  minute : ℤ
  hour : ℤ
  is24 : Bool
  quiet : Bool
  minHomed : Bool
  hrHomed : Bool
  minEndstopLow : Bool
  hrEndstopLow : Bool
  minMotorStops : Bool
  hrMotorStops : Bool
  sMin : ℚ
  sHr : ℚ
deriving DecidableEq

/-- SplitFlapClock state: the orchestration state, the tracked flap index
and fractional-step accumulator per axis, and whether each axis's motor
has an asynchronous move in flight. -/
structure ClockS where
  state : ClockState
  currentMinuteFlap : ℤ
  currentHourFlap : ℤ
  minuteStepError : ℚ
  hourStepError : ℚ
  minutesMoving : Bool
  hoursMoving : Bool
deriving DecidableEq

/-- SplitFlapClock::moveFlaps as the orchestrator calls it directly: no
motor command when `flapsToMove ≤ 0`, else the accumulator recursion of
`flapRun` over the (synchronously drained) per-flap moves, recorded as
one `flapAdvance` event. -/
def moveFlapsM (a : Axis) (S e : ℚ) (flapsToMove : ℤ) : ℚ × List ClockEv :=
  if flapsToMove ≤ 0 then (e, [])
  else ((flapRun S e flapsToMove.toNat).1, [ClockEv.flapAdvance a flapsToMove])

/-- The flaps-to-move computation of SplitFlapClock::moveToAbsoluteFlap:
`targetFlap - currentFlap`, wrapped up by the wheel size when negative. -/
def flapsDelta (currentFlap targetFlap totalFlapsOnWheel : ℤ) : ℤ :=
  let d := targetFlap - currentFlap
  if d < 0 then d + totalFlapsOnWheel else d

/-- SplitFlapClock::moveToAbsoluteFlap: returns the new current flap
(unconditionally the target), the new accumulator, and the call event. -/
def moveToAbsoluteFlapM (a : Axis) (S : ℚ) (currentFlap : ℤ) (e : ℚ)
    (targetFlap totalFlapsOnWheel : ℤ) : ℤ × ℚ × List ClockEv :=
  let d := flapsDelta currentFlap targetFlap totalFlapsOnWheel
  (targetFlap, (moveFlapsM a S e d).1, [ClockEv.moveTo a targetFlap])

/-- SplitFlapClock::moveToCurrentTime: absolute catch-up move of the
minutes axis, then the hours axis, to the live target flaps. -/
def moveToCurrentTimeM (env : Env) (s : ClockS) : ClockS × List ClockEv :=
  let targetHourFlap := getTargetHourFlap env.is24 env.hour
  let rMin := moveToAbsoluteFlapM Axis.minutes env.sMin s.currentMinuteFlap
    s.minuteStepError env.minute 60
  let rHr := moveToAbsoluteFlapM Axis.hours env.sHr s.currentHourFlap
    s.hourStepError targetHourFlap 24
  ({ s with currentMinuteFlap := rMin.1, minuteStepError := rMin.2.1,
            currentHourFlap := rHr.1, hourStepError := rHr.2.1 },
   rMin.2.2 ++ rHr.2.2)

/-- SplitFlapClock::initialize.  Homing outcomes come from the
environment; `homeMotor` always leaves its motor stopped.  The error
codes are the firmware's constants: minute-homing failure displays hour
flap 4 and minute flap 0; hour-homing failure displays minute flap 3 and
hour flap 0.  Returns the new state, the ordered event trace and the
boolean result. -/
def initializeM (env : Env) (s : ClockS) : ClockS × List ClockEv × Bool :=
  let s0 := { s with state := ClockState.IDLE, minutesMoving := false,
                     hoursMoving := false }
  let s1 := if env.minHomed then
      { s0 with currentMinuteFlap := 0, minuteStepError := 0 } else s0
  let s2 := if env.hrHomed then
      { s1 with currentHourFlap := 0, hourStepError := 0 } else s1
  let evs := [ClockEv.initCall, ClockEv.homeAttempt Axis.minutes,
              ClockEv.homeAttempt Axis.hours]
  if !env.minHomed then
    let s3 := { s2 with state := ClockState.ERROR_STATE }
    if env.hrHomed then
      let rHr := moveToAbsoluteFlapM Axis.hours env.sHr s3.currentHourFlap
        s3.hourStepError 4 24
      let s4 := { s3 with currentHourFlap := rHr.1, hourStepError := rHr.2.1 }
      let rMin := moveToAbsoluteFlapM Axis.minutes env.sMin s4.currentMinuteFlap
        s4.minuteStepError 0 60
      let s5 := { s4 with currentMinuteFlap := rMin.1, minuteStepError := rMin.2.1 }
      (s5, evs ++ rHr.2.2 ++ rMin.2.2, false)
    else
      (s3, evs, false)
  else if !env.hrHomed then
    let s3 := { s2 with state := ClockState.ERROR_STATE }
    let rMin := moveToAbsoluteFlapM Axis.minutes env.sMin s3.currentMinuteFlap
      s3.minuteStepError 3 60
    let s4 := { s3 with currentMinuteFlap := rMin.1, minuteStepError := rMin.2.1 }
    let rHr := moveToAbsoluteFlapM Axis.hours env.sHr s4.currentHourFlap
      s4.hourStepError 0 24
    let s5 := { s4 with currentHourFlap := rHr.1, hourStepError := rHr.2.1 }
    (s5, evs ++ rMin.2.2 ++ rHr.2.2, false)
  else if env.quiet then
    ({ s2 with state := ClockState.QUIET_MODE }, evs, true)
  else
    let r := moveToCurrentTimeM env s2
    ({ r.1 with state := ClockState.RUNNING }, evs ++ r.2, true)

/-- SplitFlapClock::handleHourChange: after a minute re-alignment,
advance the hours axis by the forward-only flap delta when the
display-mapped target hour differs from the tracked hour flap. -/
def handleHourChangeM (env : Env) (s : ClockS) : ClockS × List ClockEv :=
  let targetHourFlap := getTargetHourFlap env.is24 env.hour
  if targetHourFlap ≠ s.currentHourFlap then
    let d := targetHourFlap - s.currentHourFlap
    let hoursToMove := if d < 0 then d + 24 else d
    let r := moveFlapsM Axis.hours env.sHr s.hourStepError hoursToMove
    ({ s with hourStepError := r.1, currentHourFlap := targetHourFlap }, r.2)
  else (s, [])

/-- SplitFlapClock::handleMinuteAlign: on endstop trigger stop the
minutes motor, reset its flap index and accumulator, return to RUNNING
and evaluate the hour change; otherwise re-issue the two-revolution
sweep whenever the motor has gone idle without triggering. -/
def handleMinuteAlignM (env : Env) (s : ClockS) : ClockS × List ClockEv :=
  if env.minEndstopLow then
    let s1 := { s with minutesMoving := false, currentMinuteFlap := 0,
                       minuteStepError := 0, state := ClockState.RUNNING }
    handleHourChangeM env s1
  else if !s.minutesMoving then
    ({ s with minutesMoving := true }, [ClockEv.rawSteps Axis.minutes (4096 * 2)])
  else (s, [])

/-- The triggering condition of SplitFlapClock::checkForDrift: neither
motor moving, and an endstop reads LOW while its axis's tracked flap
index is away from the home index (0 for both axes). -/
def driftCond (env : Env) (s : ClockS) : Bool :=
  !s.minutesMoving && !s.hoursMoving &&
    ((env.minEndstopLow && decide (s.currentMinuteFlap ≠ 0)) ||
     (env.hrEndstopLow && decide (s.currentHourFlap ≠ 0)))

/-- SplitFlapClock::handleRunning (checkForDrift inlined as its condition
plus the `initialize()` call it makes): drift aborts the tick into a full
re-home; an unchanged minute is a no-op; the 59→0 wrap either re-homes
fully (at the scheduled hour boundaries of the active display mode) or
starts the minute-align sweep; any other minute change advances the
minutes axis by exactly one flap. -/
def handleRunningM (env : Env) (s : ClockS) : ClockS × List ClockEv :=
  if driftCond env s then
    let r := initializeM env s
    (r.1, r.2.1)
  else if env.minute = s.currentMinuteFlap then (s, [])
  else if env.minute = 0 ∧ s.currentMinuteFlap = 59 then
    let needsFullRehome :=
      (env.is24 && decide (env.hour = 0)) ||
      (!env.is24 && (decide (env.hour = 1) || decide (env.hour = 13)))
    if needsFullRehome then
      let r := initializeM env s
      (r.1, r.2.1)
    else
      ({ s with state := ClockState.MINUTE_ALIGN, minutesMoving := true },
       [ClockEv.rawSteps Axis.minutes (4096 * 2)])
  else
    let r := moveFlapsM Axis.minutes env.sMin s.minuteStepError 1
    ({ s with minuteStepError := r.1, currentMinuteFlap := env.minute }, r.2)

/-- The unconditional motor servicing at the top of
SplitFlapClock::update: outside ERROR_STATE both motors' `update` runs,
which can only complete (never start) an in-flight move; whether it does
this tick is an environment input. -/
def motorTick (env : Env) (s : ClockS) : ClockS :=
  if s.state ≠ ClockState.ERROR_STATE then
    { s with minutesMoving := s.minutesMoving && !env.minMotorStops,
             hoursMoving := s.hoursMoving && !env.hrMotorStops }
  else s

/-- SplitFlapClock::update: one tick of the orchestrator. -/
def updateM (env : Env) (s : ClockS) : ClockS × List ClockEv :=
  let s1 := motorTick env s
  if s1.state = ClockState.RUNNING then
    if env.quiet then ({ s1 with state := ClockState.QUIET_MODE }, [])
    else handleRunningM env s1
  else if s1.state = ClockState.MINUTE_ALIGN then
    handleMinuteAlignM env s1
  else if s1.state = ClockState.QUIET_MODE then
    if !env.quiet then
      let s2 := { s1 with state := ClockState.IDLE }
      let r := moveToCurrentTimeM env s2
      ({ r.1 with state := ClockState.RUNNING }, r.2)
    else (s1, [])
  else (s1, [])

/-! ### Concrete sample inputs used by the witnesses -/

/-- An environment for the drift scenario of §8 of the specification:
running outside quiet hours, minutes endstop reading triggered, both
homings succeeding. -/
def envDrift : Env :=
  { minute := 31
    hour := 10
    is24 := false
    quiet := false
    minHomed := true
    hrHomed := true
    minEndstopLow := true
    hrEndstopLow := false
    minMotorStops := false
    hrMotorStops := false
    sMin := 93
    sHr := 93 }

/-- A RUNNING state with tracked minute flap 30 (away from home) and both
motors idle. -/
def stRunning30 : ClockS :=
  { state := ClockState.RUNNING
    currentMinuteFlap := 30
    currentHourFlap := 10
    minuteStepError := 0
    hourStepError := 0
    minutesMoving := false
    hoursMoving := false }

/-- An environment whose minutes homing fails while hours homing
succeeds. -/
def envMinFail : Env :=
  { envDrift with minHomed := false, minEndstopLow := false }

/-- An environment where both homings fail. -/
def envBothFail : Env :=
  { envDrift with minHomed := false, hrHomed := false, minEndstopLow := false }

/-- An environment inside quiet hours. -/
def envQuiet : Env :=
  { envDrift with quiet := true, minEndstopLow := false }

/-- A QUIET_MODE state. -/
def stQuiet : ClockS :=
  { stRunning30 with state := ClockState.QUIET_MODE }

end SplitFlap

namespace SplitFlap

lemma cround_abs_le (x : ℚ) : |x - (cround x : ℚ)| ≤ 1 / 2 := by
  unfold cround
  split
  · push_cast
    have h := abs_sub_round (-x)
    calc |x - -(round (-x) : ℚ)| = |(-x) - (round (-x) : ℚ)| := by
          rw [← abs_neg]; ring_nf
      _ ≤ 1 / 2 := h
  · exact abs_sub_round x

lemma flapRun_fst_one (S e : ℚ) : (flapRun S e 1).1 = (S + e) - cround (S + e) := by
  simp [flapRun]

lemma flapRun_residual (S : ℚ) : ∀ (n : ℕ) (e : ℚ), |e| ≤ 1 / 2 →
    |(flapRun S e n).1| ≤ 1 / 2 := by
  intro n
  induction n with
  | zero => intro e he; simpa [flapRun] using he
  | succ m ih =>
      intro e _
      show |(flapRun S ((S + e) - cround (S + e)) m).1| ≤ 1 / 2
      exact ih _ (cround_abs_le (S + e))

lemma flapRun_total (S : ℚ) : ∀ (n : ℕ) (e : ℚ),
    ((flapRun S e n).2 : ℚ) = n * S + e - (flapRun S e n).1 := by
  intro n
  induction n with
  | zero => intro e; simp [flapRun]
  | succ m ih =>
      intro e
      show ((cround (S + e) + (flapRun S ((S + e) - cround (S + e)) m).2 : ℤ) : ℚ)
        = (m + 1 : ℕ) * S + e - (flapRun S ((S + e) - cround (S + e)) m).1
      push_cast
      rw [ih ((S + e) - cround (S + e))]
      ring

lemma callsRun_residual (S : ℚ) : ∀ (ns : List ℕ) (e : ℚ), |e| ≤ 1 / 2 →
    |(callsRun S e ns).1| ≤ 1 / 2 := by
  intro ns
  induction ns with
  | nil => intro e he; simpa [callsRun] using he
  | cons n ns ih =>
      intro e he
      show |(callsRun S (flapRun S e n).1 ns).1| ≤ 1 / 2
      exact ih _ (flapRun_residual S n e he)

lemma callsRun_total (S : ℚ) : ∀ (ns : List ℕ) (e : ℚ),
    ((callsRun S e ns).2 : ℚ) = (ns.sum : ℚ) * S + e - (callsRun S e ns).1 := by
  intro ns
  induction ns with
  | nil => intro e; simp [callsRun]
  | cons n ns ih =>
      intro e
      show (((flapRun S e n).2 + (callsRun S (flapRun S e n).1 ns).2 : ℤ) : ℚ)
        = ((n :: ns).sum : ℚ) * S + e - (callsRun S (flapRun S e n).1 ns).1
      rw [List.sum_cons]
      push_cast
      rw [ih (flapRun S e n).1]
      have h := flapRun_total S n e
      push_cast at h ⊢
      rw [h]
      ring

/-- C1: for every sequence of `moveFlaps` calls on one axis (one list entry
per call, the accumulator persisting across calls and starting at 0), the
accumulator residual left by every individual flap move lies within
±1/2 step, and the total number of whole steps commanded differs from the
ideal real-valued total (total flaps advanced times the steps-per-flap
constant S) by at most 1/2 step, for any run length. -/
theorem moveFlaps_accumulator_bounded (S : ℚ) (ns : List ℕ) :
    (∀ e : ℚ, |(flapRun S e 1).1| ≤ 1 / 2) ∧
    |((callsRun S 0 ns).2 : ℚ) - (ns.sum : ℚ) * S| ≤ 1 / 2 := by
  constructor
  · intro e
    rw [flapRun_fst_one]
    exact cround_abs_le (S + e)
  · have h := callsRun_total S ns 0
    rw [h]
    have hres : |(callsRun S (0 : ℚ) ns).1| ≤ 1 / 2 :=
      callsRun_residual S ns 0 (by norm_num)
    calc |(ns.sum : ℚ) * S + 0 - (callsRun S 0 ns).1 - (ns.sum : ℚ) * S|
        = |(callsRun S 0 ns).1| := by rw [← abs_neg]; ring_nf
      _ ≤ 1 / 2 := hres

lemma phaseDirInv_applyOp (s : MotorState) (op : MotorOp) (h : PhaseDirInv s) :
    PhaseDirInv (applyOp s op) := by
  obtain ⟨h1, h2, h3⟩ := h
  cases op with
  | moveStepsOp n now =>
      simp only [applyOp, moveStepsM]
      split
      · refine ⟨by simpa using h1, by simpa using h2, ?_⟩
        split <;> split <;> norm_num
      · exact ⟨by simpa using h1, by simpa using h2, by simpa using h3⟩
  | updateOp now =>
      simp only [applyOp, updateMotor, stopM]
      rcases h3 with h3 | h3 <;>
        refine ⟨?_, ?_, ?_⟩ <;>
          (split_ifs <;> (first | (simp_all; omega) | simp_all | omega))
  | stopOp => exact ⟨h1, h2, h3⟩
  | setSpeedOp sps =>
      simp only [applyOp, setSpeedM]
      split <;>
        exact ⟨by simpa using h1, by simpa using h2, by simpa using h3⟩

lemma phaseDirInv_runOps (ops : List MotorOp) : ∀ s : MotorState, PhaseDirInv s →
    PhaseDirInv (runOps s ops) := by
  induction ops with
  | nil => intro s h; exact h
  | cons op ops ih =>
      intro s h
      exact ih (applyOp s op) (phaseDirInv_applyOp s op h)

lemma movingInv_applyOp (s : MotorState) (op : MotorOp) (h : MovingInv s)
    (hok : okOpB s op = true) : MovingInv (applyOp s op) := by
  cases op with
  | moveStepsOp n now =>
      simp only [okOpB, Bool.or_eq_true, decide_eq_true_eq] at hok
      simp only [applyOp, moveStepsM, MovingInv] at h ⊢
      split_ifs with hpos <;>
        first
          | (simp <;> omega)
          | (have hmv : s.isMoving = false := by
               rcases hok with hok | hok
               · exact absurd (Int.natAbs_eq_zero.mp (by omega)) hok
               · simpa using hok
             simp [hmv] <;> omega)
  | updateOp now =>
      simp only [applyOp, updateMotor, stopM, MovingInv] at h ⊢
      split_ifs <;> (first | (simp_all; omega) | simp_all | omega)
  | stopOp =>
      have hmv : s.isMoving = false := by simpa [okOpB] using hok
      simp only [applyOp, stopM, MovingInv] at h ⊢
      simp [hmv] at h
      simp [h]
  | setSpeedOp sps =>
      simp only [applyOp, setSpeedM, MovingInv] at h ⊢
      split_ifs <;> simpa using h

lemma movingInv_runOps (ops : List MotorOp) : ∀ s : MotorState, MovingInv s →
    okTraceB s ops = true → MovingInv (runOps s ops) := by
  induction ops with
  | nil => intro s h _; exact h
  | cons op ops ih =>
      intro s h hok
      simp only [okTraceB, Bool.and_eq_true] at hok
      exact ih (applyOp s op) (movingInv_applyOp s op h hok.1) hok.2

/-- C3 (amended): for every sequence of StepperMotor operations from the
constructed state the phase-sequence index stays in 0..7; and on every
sequence in which `moveSteps` is only called with a nonzero count or on an
idle motor and `stop` is only called on an idle motor, the moving flag is
true iff the remaining step count (target steps minus steps moved) is
positive.  The unrestricted biconditional of the original claim is false:
`moveSteps(0)` during a move leaves the moving flag set with zero steps
remaining (see the counterexample). -/
theorem motor_state_invariant (r : Bool) (ops : List MotorOp) :
    (0 ≤ (runOps (motorInit r) ops).currentStepInSequence ∧
      (runOps (motorInit r) ops).currentStepInSequence < 8) ∧
    (okTraceB (motorInit r) ops = true →
      ((runOps (motorInit r) ops).isMoving = true ↔
        (runOps (motorInit r) ops).stepsMoved < (runOps (motorInit r) ops).targetSteps)) := by
  have hinit : PhaseDirInv (motorInit r) := by
    constructor
    · norm_num [motorInit]
    · constructor
      · norm_num [motorInit]
      · left; rfl
  have hphase := phaseDirInv_runOps ops (motorInit r) hinit
  refine ⟨⟨hphase.1, hphase.2.1⟩, ?_⟩
  intro hok
  have hmv : MovingInv (motorInit r) := by
    simp [MovingInv, motorInit]
  exact movingInv_runOps ops (motorInit r) hmv hok

/-- C3 witness: a concrete benign run (set speed, command one step, one
elapsed update) on which both invariant parts hold. -/
theorem motor_state_invariant_witness :
    (0 ≤ (runOps (motorInit false)
        [MotorOp.setSpeedOp 420, MotorOp.moveStepsOp 1 0, MotorOp.updateOp 3000]).currentStepInSequence ∧
      (runOps (motorInit false)
        [MotorOp.setSpeedOp 420, MotorOp.moveStepsOp 1 0, MotorOp.updateOp 3000]).currentStepInSequence < 8) ∧
    (okTraceB (motorInit false)
        [MotorOp.setSpeedOp 420, MotorOp.moveStepsOp 1 0, MotorOp.updateOp 3000] = true →
      ((runOps (motorInit false)
          [MotorOp.setSpeedOp 420, MotorOp.moveStepsOp 1 0, MotorOp.updateOp 3000]).isMoving = true ↔
        (runOps (motorInit false)
          [MotorOp.setSpeedOp 420, MotorOp.moveStepsOp 1 0, MotorOp.updateOp 3000]).stepsMoved <
        (runOps (motorInit false)
          [MotorOp.setSpeedOp 420, MotorOp.moveStepsOp 1 0, MotorOp.updateOp 3000]).targetSteps)) :=
  motor_state_invariant false
    [MotorOp.setSpeedOp 420, MotorOp.moveStepsOp 1 0, MotorOp.updateOp 3000]

/-- C3 counterexample: calling `moveSteps(0)` while a move of 5 steps is in
progress leaves the moving flag true although the remaining step count
(target minus moved) is zero — `moveSteps` resets both counters but only
ever sets the moving flag, refuting the claimed biconditional. -/
theorem motor_moving_iff_cex :
    (runOps (motorInit false) [MotorOp.moveStepsOp 5 0, MotorOp.moveStepsOp 0 1]).isMoving = true ∧
    ¬ ((runOps (motorInit false) [MotorOp.moveStepsOp 5 0, MotorOp.moveStepsOp 0 1]).stepsMoved <
        (runOps (motorInit false) [MotorOp.moveStepsOp 5 0, MotorOp.moveStepsOp 0 1]).targetSteps) := by
  decide

/-- C8 (amended): `setSpeed(stepsPerSecond)` sets the per-step interval to
`1000000 / stepsPerSecond` microseconds when stepsPerSecond > 0 and to 0
when stepsPerSecond ≤ 0, and in both cases changes no other state.  An
interval of 0 means the elapsed-time gate of `update` is always satisfied,
so for stepsPerSecond ≤ 0 a moving motor advances a step on every update
call — not "never", as the original claim states (see the counterexample). -/
theorem setSpeed_interval_frame (sps : ℤ) (s : MotorState) (now : ℕ) :
    (setSpeedM sps s).stepInterval = (if 0 < sps then (1000000 / sps).toNat else 0) ∧
    { setSpeedM sps s with stepInterval := s.stepInterval } = s ∧
    (sps ≤ 0 → s.isMoving = true →
      (updateMotor now (setSpeedM sps s)).stepsMoved = s.stepsMoved + 1) := by
  refine ⟨?_, ?_, ?_⟩
  · unfold setSpeedM
    split <;> simp_all
  · unfold setSpeedM
    split <;> rfl
  · intro hle hmov
    have hs : setSpeedM sps s = { s with stepInterval := 0 } := by
      unfold setSpeedM
      split
      · rename_i hgt
        exact absurd hgt (by omega)
      · rfl
    rw [hs]
    unfold updateMotor
    simp only [hmov, Bool.not_true, Bool.false_eq_true, if_false]
    rw [if_pos (by exact Nat.zero_le _)]
    split
    · rfl
    · rfl

/-- C8 counterexample: after `setSpeed(-1)` (so stepsPerSecond ≤ 0, interval
stored as 0) a motor that is mid-move advances a step on the very next
`update`, refuting "the motor never advances a step on update". -/
theorem setSpeed_never_cex :
    (setSpeedM (-1) (moveStepsM 5 0 (motorInit false))).stepInterval = 0 ∧
    (updateMotor 0 (setSpeedM (-1) (moveStepsM 5 0 (motorInit false)))).stepsMoved = 1 := by
  decide

/-- C2: for current and target flap indices within [0, wheelSize), the
flaps-to-move count of `moveToAbsoluteFlap` equals
(target − current + wheelSize) mod wheelSize and lies in [0, wheelSize)
— never a backward move — and the call sets the current flap index to the
target unconditionally (for any inputs whatsoever). -/
theorem moveToFlap_forward (cur tgt W : ℤ)
    (h1 : 0 ≤ cur) (h2 : cur < W) (h3 : 0 ≤ tgt) (h4 : tgt < W) :
    flapsDelta cur tgt W = (tgt - cur + W) % W ∧
    0 ≤ flapsDelta cur tgt W ∧ flapsDelta cur tgt W < W ∧
    ∀ (a : Axis) (S e : ℚ) (c t w : ℤ), (moveToAbsoluteFlapM a S c e t w).1 = t := by
  refine ⟨?_, ?_, ?_, ?_⟩
  · simp only [flapsDelta]
    split
    · rw [Int.emod_eq_of_lt (by omega) (by omega)]
    · have hw : tgt - cur + W = (tgt - cur) + W * 1 := by ring
      rw [hw, Int.add_mul_emod_self_left,
          Int.emod_eq_of_lt (by omega) (by omega)]
  · simp only [flapsDelta]
    split <;> omega
  · simp only [flapsDelta]
    split <;> omega
  · intro a S e c t w
    rfl

/-- C2 witness: the wrap case of §8's end-to-end scenario, current flap 55
to target 0 on the 60-flap minutes wheel (5 forward flaps). -/
theorem moveToFlap_forward_witness :
    (0:ℤ) ≤ 55 ∧ (55:ℤ) < 60 ∧ (0:ℤ) ≤ 0 ∧ (0:ℤ) < 60 ∧
    (flapsDelta 55 0 60 = (0 - 55 + 60) % 60 ∧
     0 ≤ flapsDelta 55 0 60 ∧ flapsDelta 55 0 60 < 60 ∧
     ∀ (a : Axis) (S e : ℚ) (c t w : ℤ), (moveToAbsoluteFlapM a S c e t w).1 = t) :=
  ⟨by norm_num, by norm_num, le_refl 0, by norm_num,
   moveToFlap_forward 55 0 60 (by norm_num) (by norm_num) (le_refl 0) (by norm_num)⟩

lemma getTargetHourFlap_false (h : ℤ) :
    getTargetHourFlap false h =
      (if h = 0 ∨ h = 12 then 12 else if h > 12 then h - 12 else h) := by
  simp [getTargetHourFlap]

/-- C9: for every hour 0–23, getTargetHourFlap is the identity in 24-hour
mode; in 12-hour mode hours 0 and 12 map to flap 12, hours 1–11 map to
themselves, hours 13–23 map to hour − 12; in particular 0 → 12, 12 → 12,
13 → 1 and 23 → 11. -/
theorem hour_flap_mapping (h : ℤ) (h0 : 0 ≤ h) (h23 : h ≤ 23) :
    getTargetHourFlap true h = h ∧
    ((h = 0 ∨ h = 12) → getTargetHourFlap false h = 12) ∧
    (1 ≤ h → h ≤ 11 → getTargetHourFlap false h = h) ∧
    (13 ≤ h → getTargetHourFlap false h = h - 12) ∧
    getTargetHourFlap false 0 = 12 ∧ getTargetHourFlap false 12 = 12 ∧
    getTargetHourFlap false 13 = 1 ∧ getTargetHourFlap false 23 = 11 := by
  refine ⟨by simp [getTargetHourFlap], ?_, ?_, ?_, by decide, by decide,
          by decide, by decide⟩
  · rintro (rfl | rfl) <;> decide
  · intro ha hb
    rw [getTargetHourFlap_false]
    split_ifs with hc hd
    · rcases hc with rfl | rfl <;> omega
    · omega
    · rfl
  · intro hc
    rw [getTargetHourFlap_false]
    split_ifs with ha hb
    · rcases ha with rfl | rfl <;> omega
    · rfl
    · omega

/-- C9 witness: the mapping at hour 13. -/
theorem hour_flap_mapping_witness :
    (0:ℤ) ≤ 13 ∧ (13:ℤ) ≤ 23 ∧
    (getTargetHourFlap true 13 = 13 ∧
     ((13:ℤ) = 0 ∨ (13:ℤ) = 12 → getTargetHourFlap false 13 = 12) ∧
     ((1:ℤ) ≤ 13 → (13:ℤ) ≤ 11 → getTargetHourFlap false 13 = 13) ∧
     ((13:ℤ) ≤ 13 → getTargetHourFlap false 13 = 13 - 12) ∧
     getTargetHourFlap false 0 = 12 ∧ getTargetHourFlap false 12 = 12 ∧
     getTargetHourFlap false 13 = 1 ∧ getTargetHourFlap false 23 = 11) :=
  ⟨by norm_num, by norm_num, hour_flap_mapping 13 (by norm_num) (by norm_num)⟩

lemma shift_mod_two_eq_testBit (days dow : ℕ) :
    ((days >>> dow) % 2 = 1) ↔ Nat.testBit days dow = true := by
  rw [Nat.testBit_to_div_mod, Nat.shiftRight_eq_div_pow]
  simp

lemma scheduleHits_iff (days : ℕ) (sH eH hr : ℤ) (dow : ℕ) :
    scheduleHits days sH eH hr dow = true ↔
      scheduleAppliesSpec days sH eH hr dow := by
  unfold scheduleHits scheduleAppliesSpec windowActiveSpec
  split_ifs with hbit hover <;>
    first
      | (have ht := (shift_mod_two_eq_testBit days dow).mp hbit
         simp [ht, ge_iff_le])
      | (have ht : ¬ Nat.testBit days dow = true := fun hc =>
           hbit ((shift_mod_two_eq_testBit days dow).mpr hc)
         simp [ht])

/-- C6: isInQuietHours (dual-schedule revision) is a pure function of the
hour, the day of week and the configured schedules; it is false whenever
the day of week is unavailable (manual time mode or WiFi down), and
otherwise it is true iff the master switch is on and at least one of the
two schedules applies today (today's bit set in its day bitmask) with its
window active — overnight windows (start > end) when hour ≥ start OR
hour < end, same-day windows when start ≤ hour < end. -/
theorem quiet_hours_characterized (cfg : QuietConfig) (manual wifi : Bool)
    (hour : ℤ) (dow : ℕ) :
    isInQuietHours cfg manual wifi hour dow = true ↔
      (isNtpActive manual wifi = true ∧ cfg.enabled = true ∧
       (scheduleAppliesSpec cfg.daysA cfg.startA cfg.endA hour dow ∨
        scheduleAppliesSpec cfg.daysB cfg.startB cfg.endB hour dow)) := by
  rw [← scheduleHits_iff, ← scheduleHits_iff]
  cases hen : cfg.enabled <;> cases hnt : isNtpActive manual wifi <;>
    cases hca : scheduleHits cfg.daysA cfg.startA cfg.endA hour dow <;>
    cases hcb : scheduleHits cfg.daysB cfg.startB cfg.endB hour dow <;>
      simp [isInQuietHours, hen, hnt, hca, hcb]

/-- C6 witness: §8's example — schedule A covering Monday–Thursday with
an overnight 21→7 window is quiet on a Tuesday (day 2) at hour 22. -/
theorem quiet_hours_characterized_witness :
    isInQuietHours
        { enabled := true, startA := 21, endA := 7, daysA := 30,
          startB := 23, endB := 10, daysB := 0 } false true 22 2 = true ↔
      (isNtpActive false true = true ∧
       ({ enabled := true, startA := 21, endA := 7, daysA := 30,
          startB := 23, endB := 10, daysB := 0 } : QuietConfig).enabled = true ∧
       (scheduleAppliesSpec 30 21 7 22 2 ∨ scheduleAppliesSpec 0 23 10 22 2)) :=
  quiet_hours_characterized
    { enabled := true, startA := 21, endA := 7, daysA := 30,
      startB := 23, endB := 10, daysB := 0 } false true 22 2

lemma initializeM_trace (env : Env) (s : ClockS) :
    (initializeM env s).2.1.count ClockEv.initCall = 1 ∧
    ∀ (a : Axis) (n : ℤ), ClockEv.flapAdvance a n ∉ (initializeM env s).2.1 := by
  unfold initializeM
  split_ifs <;>
    simp [moveToCurrentTimeM, moveToAbsoluteFlapM, List.count_cons, List.count_nil]

/-- C4: in the RUNNING state outside quiet hours, when neither motor is
moving and an endstop reads triggered while its axis's tracked flap index
is away from home, the tick is exactly one full `initialize()` call (the
whole tick result is the initialize result — no further evaluation), the
trace carries the initialize invocation exactly once, and no incremental
minute advance (`moveFlaps` on the minutes axis) is issued that tick. -/
theorem drift_forces_rehome (env : Env) (s : ClockS)
    (hs : s.state = ClockState.RUNNING) (hq : env.quiet = false)
    (hm : s.minutesMoving = false) (hh : s.hoursMoving = false)
    (hdrift : (env.minEndstopLow = true ∧ s.currentMinuteFlap ≠ 0) ∨
              (env.hrEndstopLow = true ∧ s.currentHourFlap ≠ 0)) :
    updateM env s = ((initializeM env (motorTick env s)).1,
                     (initializeM env (motorTick env s)).2.1) ∧
    (updateM env s).2.count ClockEv.initCall = 1 ∧
    ∀ (n : ℤ), ClockEv.flapAdvance Axis.minutes n ∉ (updateM env s).2 := by
  have hst : (motorTick env s).state = ClockState.RUNNING := by
    simp [motorTick, hs]
  have hmm : (motorTick env s).minutesMoving = false := by
    simp [motorTick, hs, hm]
  have hhm : (motorTick env s).hoursMoving = false := by
    simp [motorTick, hs, hh]
  have hcm : (motorTick env s).currentMinuteFlap = s.currentMinuteFlap := by
    simp [motorTick, hs]
  have hch : (motorTick env s).currentHourFlap = s.currentHourFlap := by
    simp [motorTick, hs]
  have hd : driftCond env (motorTick env s) = true := by
    simp [driftCond, hmm, hhm, hcm, hch]
    tauto
  have h1 : updateM env s = ((initializeM env (motorTick env s)).1,
      (initializeM env (motorTick env s)).2.1) := by
    simp only [updateM]
    simp [hst, hq, handleRunningM, hd]
  refine ⟨h1, ?_, ?_⟩
  · rw [h1]
    exact (initializeM_trace env (motorTick env s)).1
  · intro n
    rw [h1]
    exact (initializeM_trace env (motorTick env s)).2 Axis.minutes n

/-- C4 witness: §8's drift scenario — RUNNING with tracked minute flap 30,
both motors idle, the minutes endstop reading triggered. -/
theorem drift_forces_rehome_witness :
    updateM envDrift stRunning30 =
      ((initializeM envDrift (motorTick envDrift stRunning30)).1,
       (initializeM envDrift (motorTick envDrift stRunning30)).2.1) ∧
    (updateM envDrift stRunning30).2.count ClockEv.initCall = 1 ∧
    ∀ (n : ℤ), ClockEv.flapAdvance Axis.minutes n ∉ (updateM envDrift stRunning30).2 :=
  drift_forces_rehome envDrift stRunning30 rfl rfl rfl rfl
    (Or.inl ⟨rfl, by decide⟩)

/-- C5: `initialize()` homes the minutes axis and then the hours axis
(visible in the trace); when minutes homing fails while hours homing
succeeded, it enters ERROR_STATE, moves the hours wheel to its error-code
flap (4) first and then the minutes wheel (to 0), and returns false; when
minutes homing succeeded but hours homing fails, it enters ERROR_STATE,
moves the minutes wheel to its error-code flap (3) first and then the
hours wheel (to 0), and returns false. -/
theorem initialize_single_home_failure (env : Env) (s : ClockS) :
    (env.minHomed = false → env.hrHomed = true →
      (initializeM env s).1.state = ClockState.ERROR_STATE ∧
      (initializeM env s).2.2 = false ∧
      (initializeM env s).2.1 =
        [ClockEv.initCall, ClockEv.homeAttempt Axis.minutes,
         ClockEv.homeAttempt Axis.hours,
         ClockEv.moveTo Axis.hours 4, ClockEv.moveTo Axis.minutes 0]) ∧
    (env.minHomed = true → env.hrHomed = false →
      (initializeM env s).1.state = ClockState.ERROR_STATE ∧
      (initializeM env s).2.2 = false ∧
      (initializeM env s).2.1 =
        [ClockEv.initCall, ClockEv.homeAttempt Axis.minutes,
         ClockEv.homeAttempt Axis.hours,
         ClockEv.moveTo Axis.minutes 3, ClockEv.moveTo Axis.hours 0]) := by
  constructor <;> intro hm hh <;>
    simp [initializeM, moveToAbsoluteFlapM, hm, hh]

/-- C5 witness: a concrete run in which minutes homing fails and hours
homing succeeds. -/
theorem initialize_single_home_failure_witness :
    (initializeM envMinFail stRunning30).1.state = ClockState.ERROR_STATE ∧
    (initializeM envMinFail stRunning30).2.2 = false ∧
    (initializeM envMinFail stRunning30).2.1 =
      [ClockEv.initCall, ClockEv.homeAttempt Axis.minutes,
       ClockEv.homeAttempt Axis.hours,
       ClockEv.moveTo Axis.hours 4, ClockEv.moveTo Axis.minutes 0] :=
  (initialize_single_home_failure envMinFail stRunning30).1 rfl rfl

/-- C10: when both homings fail, `initialize()` enters ERROR_STATE and
returns false with no flap movement commanded on either axis — the trace
holds only the invocation and the two homing attempts, so no diagnostic
error-code flap is displayed. -/
theorem initialize_both_home_failures (env : Env) (s : ClockS)
    (hm : env.minHomed = false) (hh : env.hrHomed = false) :
    (initializeM env s).1.state = ClockState.ERROR_STATE ∧
    (initializeM env s).2.2 = false ∧
    (initializeM env s).2.1 =
      [ClockEv.initCall, ClockEv.homeAttempt Axis.minutes,
       ClockEv.homeAttempt Axis.hours] := by
  simp [initializeM, hm, hh]

/-- C10 witness: a concrete run in which both homings fail. -/
theorem initialize_both_home_failures_witness :
    (initializeM envBothFail stRunning30).1.state = ClockState.ERROR_STATE ∧
    (initializeM envBothFail stRunning30).2.2 = false ∧
    (initializeM envBothFail stRunning30).2.1 =
      [ClockEv.initCall, ClockEv.homeAttempt Axis.minutes,
       ClockEv.homeAttempt Axis.hours] :=
  initialize_both_home_failures envBothFail stRunning30 rfl rfl

/-- C7: while the orchestrator state is QUIET_MODE and quiet hours still
apply, a tick of `update()` issues no motion command at all (empty trace)
and stays in QUIET_MODE; when quiet hours no longer apply, the tick's
commands are exactly the catch-up absolute moves of both axes to the live
target flaps, after which the state is RUNNING. -/
theorem quiet_mode_no_commands (env : Env) (s : ClockS)
    (h : s.state = ClockState.QUIET_MODE) :
    (env.quiet = true →
      (updateM env s).2 = [] ∧ (updateM env s).1.state = ClockState.QUIET_MODE) ∧
    (env.quiet = false →
      (updateM env s).2 = [ClockEv.moveTo Axis.minutes env.minute,
        ClockEv.moveTo Axis.hours (getTargetHourFlap env.is24 env.hour)] ∧
      (updateM env s).1.state = ClockState.RUNNING) := by
  constructor <;> intro hq <;>
    simp [updateM, motorTick, h, hq, moveToCurrentTimeM, moveToAbsoluteFlapM]

/-- C7 witness: a concrete QUIET_MODE state in an environment still inside
quiet hours. -/
theorem quiet_mode_no_commands_witness :
    (envQuiet.quiet = true →
      (updateM envQuiet stQuiet).2 = [] ∧
      (updateM envQuiet stQuiet).1.state = ClockState.QUIET_MODE) ∧
    (envQuiet.quiet = false →
      (updateM envQuiet stQuiet).2 = [ClockEv.moveTo Axis.minutes envQuiet.minute,
        ClockEv.moveTo Axis.hours (getTargetHourFlap envQuiet.is24 envQuiet.hour)] ∧
      (updateM envQuiet stQuiet).1.state = ClockState.RUNNING) :=
  quiet_mode_no_commands envQuiet stQuiet rfl

end SplitFlap
